import Mathlib

/-!
Verification of the timesheet editor (src/timesheet.py) against its
natural-language specification.

The program edits one row of a spreadsheet: it locates the row whose
date-column cell matches a target day, writes up to four time-of-day
values into fixed columns of that row, renders the row, and saves the
workbook when anything changed.  This file shallowly embeds the data
model (a grid of typed cell values), the `Timesheet` class operations
and the `__main__` CLI adapter, and proves or refutes the frozen claims
about them.

Conventions of the embedding:
* openpyxl cell values are `CellValue`; an empty cell is `CellValue.vNone`
  (Python `None`).
* A worksheet is a `Grid`, a list of rows; list position `n` is
  spreadsheet row `n + 1` (openpyxl rows are 1-based).
* `sheet[column + str(i)]` addressing is `getColumnCell` / `setColumn`,
  which fail (raise, i.e. `Except.error`) exactly when `i = 0`, since
  "B0" is an invalid coordinate; reads past the last row yield an empty
  cell and writes past it extend the grid, as openpyxl creates cells on
  demand.
* `_get_row_index` iterates `enumerate(sheet["A"])`, whose indices start
  at 0; the embedding keeps that 0-based counting faithfully.
-/

deriving instance DecidableEq for Except

/-- Calendar date as Python's `datetime.date` carries it (year, month, day).
The program never validates ranges on cell values, so none are imposed. -/
structure Date where
  year : Nat
  month : Nat
  day : Nat
deriving DecidableEq, Repr

/-- Time of day as Python's `datetime.time` carries it. -/
structure Time where
  hour : Nat
  minute : Nat
  second : Nat
deriving DecidableEq, Repr

/-- Zero-pad a numeral to two digits, as Python's str(date)/str(time) do. -/
def pad2 (n : Nat) : String :=
  if n < 10 then "0" ++ toString n else toString n

/-- Zero-pad a numeral to four digits (Python's str(date) year field). -/
def pad4 (n : Nat) : String :=
  if n < 10 then "000" ++ toString n
  else if n < 100 then "00" ++ toString n
  else if n < 1000 then "0" ++ toString n
  else toString n

/-- Python's `str` on a `date`: `YYYY-MM-DD`. -/
def Date.str (d : Date) : String :=
  pad4 d.year ++ "-" ++ pad2 d.month ++ "-" ++ pad2 d.day

/-- Python's `str` on a `time` with zero microseconds: `HH:MM:SS`. -/
def Time.str (t : Time) : String :=
  pad2 t.hour ++ ":" ++ pad2 t.minute ++ ":" ++ pad2 t.second

/-- A spreadsheet cell value as openpyxl hands it to the program: `None`
for an empty cell, a `datetime`, a plain `date`, a `time`, a string, or
a number.  Only the constructors matter to the code (its one type test
is `isinstance(value, datetime)`). -/
inductive CellValue where
  | vNone
  | vDatetime (d : Date) (t : Time)
  | vDate (d : Date)
  | vTime (t : Time)
  | vStr (s : String)
  | vInt (n : Int)
deriving DecidableEq, Repr

/-- Python's f-string rendering of a cell value (`f"{v}"`). -/
def CellValue.str : CellValue → String
  | .vNone => "None"
  | .vDatetime d t => d.str ++ " " ++ t.str
  | .vDate d => d.str
  | .vTime t => t.str
  | .vStr s => s
  | .vInt n => toString n

/-- The five columns the editor touches (`__init__` binds date→A, start→B,
break_start→C, break_end→D, end→E). -/
inductive Col where
  | A | B | C | D | E
deriving DecidableEq, Repr

/-- One spreadsheet row restricted to the five columns the program uses. -/
structure RowCells where
  colA : CellValue
  colB : CellValue
  colC : CellValue
  colD : CellValue
  colE : CellValue
deriving DecidableEq, Repr

/-- A row of empty cells (what openpyxl yields outside the used range). -/
def emptyRow : RowCells := ⟨.vNone, .vNone, .vNone, .vNone, .vNone⟩

/-- Read one column of a row. -/
def getCol (c : Col) (r : RowCells) : CellValue :=
  match c with
  | .A => r.colA
  | .B => r.colB
  | .C => r.colC
  | .D => r.colD
  | .E => r.colE

/-- Write one column of a row. -/
def setCol (c : Col) (v : CellValue) (r : RowCells) : RowCells :=
  match c with
  | .A => { r with colA := v }
  | .B => { r with colB := v }
  | .C => { r with colC := v }
  | .D => { r with colD := v }
  | .E => { r with colE := v }

/-- The active sheet: rows in order; list index `n` is spreadsheet row `n+1`. -/
abbrev Grid := List RowCells

/-- Column slice `sheet["A"]`: the cells of one column for rows
1..max_row, top to bottom. -/
def columnSlice (g : Grid) (c : Col) : List CellValue :=
  g.map (getCol c)

/-- Pad the grid so list index `n` exists, mirroring openpyxl creating
cells on demand when an address beyond the current extent is touched. -/
def extendTo (g : Grid) (n : Nat) : Grid :=
  if n < g.length then g else g ++ List.replicate (n + 1 - g.length) emptyRow

/-- Write cell (list index `n`, column `c`); out-of-range rows are created
empty first, exactly like assigning to a fresh openpyxl cell. -/
def writeAt (g : Grid) (n : Nat) (c : Col) (v : CellValue) : Grid :=
  (extendTo g n).set n (setCol c v ((extendTo g n).getD n emptyRow))

/-- Read cell (list index `n`, column `c`); empty outside the grid. -/
def cellD (g : Grid) (n : Nat) (c : Col) : CellValue :=
  getCol c (g.getD n emptyRow)

/-- The in-memory editor state of `class Timesheet`: the bound workbook
grid, the file path, and the `_dirty` flag. -/
structure Timesheet where
  filePath : String
  grid : Grid
  dirty : Bool
deriving DecidableEq, Repr

/-- Constructor `Timesheet.__init__`: bind the path and active sheet; `_dirty = False`. -/
def Timesheet.init (filePath : String) (g : Grid) : Timesheet :=
  ⟨filePath, g, false⟩

/-- Column binding `self._col_date = "A"`. -/
def colDate : Col := .A
/-- Column binding `self._col_start = "B"`. -/
def colStart : Col := .B
/-- Column binding `self._col_break_start = "C"`. -/
def colBreakStart : Col := .C
/-- Column binding `self._col_break_end = "D"`. -/
def colBreakEnd : Col := .D
/-- Column binding `self._col_end = "E"`. -/
def colEnd : Col := .E

/-- The `day` value flowing into `enter` / `_get_row_index` from `__main__`:
normally a `date`, but the empty string can slip through the CLI loop
unparsed (its truthiness check skips parsing for falsy values). -/
inductive PyDay where
  | day (d : Date)
  | str (s : String)
deriving DecidableEq, Repr

/-- Python's f-string rendering of that value. -/
def PyDay.render : PyDay → String
  | .day d => d.str
  | .str s => s

/-- A time-field argument reaching `enter`: a parsed `time`, or a raw
string the CLI loop left untouched. -/
inductive TimeArg where
  | t (x : Time)
  | s (x : String)
deriving DecidableEq, Repr

/-- The cell value that writing this argument stores. -/
def TimeArg.toCell : TimeArg → CellValue
  | .t x => .vTime x
  | .s x => .vStr x

/-- The match test of `_get_row_index`'s generator:
`isinstance(cell.value, datetime) and cell.value.date() == day`.
Only datetime-typed cells can match; Python `==` between a `date` and a
non-date (e.g. a string) is `False`. -/
def isDayMatch (day : PyDay) (v : CellValue) : Bool :=
  match v, day with
  | .vDatetime d _, .day dd => d = dd
  | _, _ => false

/-- The generator + `next(..., None)` of `_get_row_index`: first index of a
matching cell in the column slice, counting from `i` (the program starts
the `enumerate` at 0). -/
def findRowIdx (day : PyDay) : List CellValue → Nat → Option Nat
  | [], _ => none
  | v :: rest, i => if isDayMatch day v then some i else findRowIdx day rest (i + 1)

/-- Lookup `Timesheet._get_row_index`: scan column A; on a miss print the
diagnostic to stderr and yield `None`.  Returns the index plus the
stderr lines emitted. -/
def getRowIndex (ts : Timesheet) (day : PyDay) : Option Nat × List String :=
  match findRowIdx day (columnSlice ts.grid colDate) 0 with
  | some k => (some k, [])
  | none =>
    (none, ["Could not find row for day " ++ day.render ++ " in " ++ ts.filePath])

/-- Read access `Timesheet._get_column(column, row_index)`:
`sheet[column + str(row_index)]`.  Coordinate row 0 is invalid and
raises; rows past the extent read as empty cells. -/
def getColumnCell (g : Grid) (c : Col) (k : Nat) : Except String CellValue :=
  if k = 0 then .error "cell coordinate 0 is invalid"
  else .ok (cellD g (k - 1) c)

/-- Setter `Timesheet._set_column`: write the addressed cell and set `_dirty = True`.
Coordinate row 0 raises, as in `_get_column`. -/
def setColumn (ts : Timesheet) (c : Col) (k : Nat) (v : CellValue) :
    Except String Timesheet :=
  if k = 0 then .error "cell coordinate 0 is invalid"
  else .ok { ts with grid := writeAt ts.grid (k - 1) c v, dirty := true }

/-- One `if <field> is not None: self._set_<field>(row_index, <field>)` step
of `enter`. -/
def setIf (ts : Timesheet) (k : Nat) (c : Col) : Option TimeArg → Except String Timesheet
  | none => .ok ts
  | some v => setColumn ts c k v.toCell

/-- The four conditional setter calls of `enter`, in source order, as a
sequence of `setIf` steps over the (argument, column) list. -/
def applyFields (k : Nat) : List (Option TimeArg × Col) → Timesheet → Except String Timesheet
  | [], ts => .ok ts
  | (arg, c) :: rest, ts =>
    match setIf ts k c arg with
    | .error e => .error e
    | .ok ts' => applyFields k rest ts'

/-- The ordered field list of `enter`'s body: start→B, end→E,
break_start→C, break_end→D (the order the four `if` statements run). -/
def enterFields (start endv break_start break_end : Option TimeArg) :
    List (Option TimeArg × Col) :=
  [(start, colStart), (endv, colEnd), (break_start, colBreakStart), (break_end, colBreakEnd)]

/-- Operation `Timesheet.enter(day, start, end, break_start, break_end)`: resolve the
row; on a miss return `(None, False)`; otherwise run the conditional
setters and return `(row_index, self.is_dirty)`.  The final component
collects the stderr lines printed along the way. -/
def enter (ts : Timesheet) (day : PyDay)
    (start endv break_start break_end : Option TimeArg) :
    Except String (Option Nat × Bool × Timesheet × List String) :=
  match getRowIndex ts day with
  | (none, errs) => .ok (none, false, ts, errs)
  | (some k, errs) =>
    match applyFields k (enterFields start endv break_start break_end) ts with
    | .error e => .error e
    | .ok ts' => .ok (some k, ts'.dirty, ts', errs)

/-- Operation `Timesheet.save()` with no explicit path: persist the workbook, print
the confirmation to stderr, clear `_dirty`.  Returns the new state and
the stderr lines. -/
def save (ts : Timesheet) : Timesheet × List String :=
  ({ ts with dirty := false }, ["Timesheet updated: " ++ ts.filePath])

/-- The `row_dict` that `print_row` builds (an `OrderedDict` in insertion
order date, start, break_start, break_end, end), for the row the index
addresses, with the `"date"` entry already passed through `_get_day`
(a `date` for a datetime cell, otherwise `None`). -/
def rowDictAt (g : Grid) (k : Nat) : List (String × CellValue) :=
  let dayV : CellValue :=
    match cellD g (k - 1) colDate with
    | .vDatetime d _ => .vDate d
    | _ => .vNone
  [("date", dayV), ("start", cellD g (k - 1) colStart),
   ("break_start", cellD g (k - 1) colBreakStart),
   ("break_end", cellD g (k - 1) colBreakEnd),
   ("end", cellD g (k - 1) colEnd)]

/-- Modelled from the spec: the boxed/tabular rendering of the row dict is
produced by the external `tabulate` collaborator (`fancy_grid`), whose
source is not part of this repository; the spec treats it as an opaque
formatting strategy.  Only that a single rendering string is printed
matters to any claim. -/
def prettyRender (rd : List (String × CellValue)) : String :=
  String.intercalate " | " (rd.map (fun p => p.1)) ++ "\n" ++
    String.intercalate " | " (rd.map (fun p => p.2.str))

/-- The compact f-string of `print_row`'s else branch, applied to a row
dict: the date value as leading label, then `k@v` for every non-`"date"`
entry whose value is not `None`, comma-joined. -/
def compactLineOf (rd : List (String × CellValue)) : String :=
  (match rd.lookup "date" with | some v => v | none => .vNone).str ++ " -> " ++
    String.intercalate ", "
      ((rd.filter (fun p => decide (p.1 ≠ "date" ∧ p.2 ≠ CellValue.vNone))).map
        (fun p => p.1 ++ "@" ++ p.2.str))

/-- The string `print_row(row_index, pretty)` prints, as a total function
of the grid (meaningful for `k ≠ 0`, where the cell reads cannot raise). -/
def renderStr (g : Grid) (k : Nat) (pretty : Bool) : String :=
  if pretty then prettyRender (rowDictAt g k) else compactLineOf (rowDictAt g k)

/-- One field entry of the compact line as the spec words it: present
fields contribute `field@value`, absent (empty/None) fields are omitted. -/
def specFieldEntry (fieldName : String) (v : CellValue) : List String :=
  if v = .vNone then [] else [fieldName ++ "@" ++ v.str]

/-- The compact rendering as the spec describes it: the row's date is the
line's leading label (never emitted as a `field@value` pair), followed by
the `field@value` entries of exactly the present time fields, in the
fixed order start, break_start, break_end, end, comma-joined. -/
def specCompact (g : Grid) (k : Nat) : String :=
  (match cellD g (k - 1) colDate with
   | .vDatetime d _ => d.str
   | _ => "None") ++ " -> " ++
  String.intercalate ", "
    (specFieldEntry "start" (cellD g (k - 1) colStart) ++
     specFieldEntry "break_start" (cellD g (k - 1) colBreakStart) ++
     specFieldEntry "break_end" (cellD g (k - 1) colBreakEnd) ++
     specFieldEntry "end" (cellD g (k - 1) colEnd))

/-- Operation `Timesheet.print_row(row_index, pretty)`: read the five fields of the
addressed row through `_get_*`/`_get_column` (which raise on coordinate
row 0), build `row_dict`, and format it in the requested mode.  Yields
the stdout line. -/
def printRow (ts : Timesheet) (k : Nat) (pretty : Bool) : Except String String := do
  let dayC ← getColumnCell ts.grid colDate k
  let startC ← getColumnCell ts.grid colStart k
  let bsC ← getColumnCell ts.grid colBreakStart k
  let beC ← getColumnCell ts.grid colBreakEnd k
  let endC ← getColumnCell ts.grid colEnd k
  let dayV : CellValue :=
    match dayC with
    | .vDatetime d _ => .vDate d
    | _ => .vNone
  let rd : List (String × CellValue) :=
    [("date", dayV), ("start", startC), ("break_start", bsC),
     ("break_end", beC), ("end", endC)]
  if pretty then
    pure (prettyRender rd)
  else
    pure ((match rd.lookup "date" with | some v => v | none => .vNone).str ++ " -> " ++
      String.intercalate ", "
        ((rd.filter (fun p => decide (p.1 ≠ "date" ∧ p.2 ≠ CellValue.vNone))).map
          (fun p => p.1 ++ "@" ++ p.2.str)))

/-- Leap-year rule applied by `datetime` when validating a day-of-month. -/
def isLeapYear (y : Nat) : Bool :=
  (y % 4 == 0 && y % 100 != 0) || y % 400 == 0

/-- Length of a month, as `datetime.date` validates it. -/
def daysInMonth (y m : Nat) : Nat :=
  if m = 2 then (if isLeapYear y then 29 else 28)
  else if m = 4 ∨ m = 6 ∨ m = 9 ∨ m = 11 then 30 else 31

/-- Split a character list at every occurrence of a separator character
(the n separators yield n+1 parts, Python `str.split(sep)` style). -/
def splitOnChar (sep : Char) : List Char → List (List Char)
  | [] => [[]]
  | c :: rest =>
    match splitOnChar sep rest with
    | [] => if c = sep then [[], []] else [[c]]
    | p :: ps => if c = sep then [] :: p :: ps else (c :: p) :: ps

/-- Decimal value of a digit character. -/
def digitVal? (c : Char) : Option Nat :=
  if 48 ≤ c.toNat ∧ c.toNat ≤ 57 then some (c.toNat - 48) else none

/-- Accumulate a decimal numeral; fails on any non-digit. -/
def digitsToNatAux : List Char → Nat → Option Nat
  | [], acc => some acc
  | c :: rest, acc =>
    match digitVal? c with
    | some d => digitsToNatAux rest (acc * 10 + d)
    | none => none

/-- Value of a nonempty all-digit character list, `none` otherwise
(the only token shape a `strptime` numeric directive accepts). -/
def digitsToNat? : List Char → Option Nat
  | [] => none
  | l => digitsToNatAux l 0

/-- Parse `datetime.strptime(s, "%Y-%m-%d").date()`: exactly four digits of
year (at least 0001), one or two digits of month 1..12 and of day
1..days-in-month, separated by literal dashes, nothing else. -/
def parseDateStr (s : String) : Option Date :=
  match splitOnChar '-' s.toList with
  | [ys, ms, ds] =>
    match digitsToNat? ys, digitsToNat? ms, digitsToNat? ds with
    | some y, some m, some d =>
      if ys.length = 4 ∧ 1 ≤ y ∧
         (ms.length = 1 ∨ ms.length = 2) ∧ 1 ≤ m ∧ m ≤ 12 ∧
         (ds.length = 1 ∨ ds.length = 2) ∧ 1 ≤ d ∧ d ≤ daysInMonth y m
      then some ⟨y, m, d⟩ else none
    | _, _, _ => none
  | _ => none

/-- Parse `datetime.strptime(s, "%H:%M").time()`: one or two digits of hour
0..23 and of minute 0..59, separated by a literal colon, nothing else;
the resulting `time` has seconds 0. -/
def parseTimeStr (s : String) : Option Time :=
  match splitOnChar ':' s.toList with
  | [hs, ms] =>
    match digitsToNat? hs, digitsToNat? ms with
    | some h, some m =>
      if (hs.length = 1 ∨ hs.length = 2) ∧ h ≤ 23 ∧
         (ms.length = 1 ∨ ms.length = 2) ∧ m ≤ 59
      then some ⟨h, m, 0⟩ else none
    | _, _ => none
  | _ => none

/-- The `--date` value after argparse: a user-supplied literal, or the
typed `today` default (`default=today` / bare-flag `const=today`). -/
inductive DateArg where
  | lit (s : String)
  | given (d : Date)
deriving DecidableEq, Repr

/-- A `--start`/`--end`/`--break-start`/`--break-end` value after argparse:
absent (`None`), a user-supplied literal, or the typed `now` constant for
a bare flag. -/
inductive TimeOpt where
  | absent
  | lit (s : String)
  | given (t : Time)
deriving DecidableEq, Repr

/-- Function `parse_date` of src/timesheet.py: an `isinstance(x, date)` value passes
through; otherwise strptime, with the fatal stderr diagnostic on failure. -/
def parse_date : DateArg → Except String Date
  | .given d => .ok d
  | .lit s =>
    match parseDateStr s with
    | some d => .ok d
    | none => .error ("Invalid day: " ++ s)

/-- Function `parse_time` of src/timesheet.py, analogously. -/
def parse_time : TimeOpt → Except String (Option Time)
  | .absent => .ok none
  | .given t => .ok (some t)
  | .lit s =>
    match parseTimeStr s with
    | some t => .ok (some t)
    | none => .error ("Invalid time: " ++ s)

/-- One `__main__` loop iteration for the date attribute: `if value:` is
false for the empty string, which is then left as the raw string the
later code receives; truthy values go through `parse_date`. -/
def processDate : DateArg → Except String PyDay
  | .given d => (parse_date (.given d)).map .day
  | .lit s =>
    if s = "" then .ok (.str s)
    else (parse_date (.lit s)).map .day

/-- One `__main__` loop iteration for a time attribute: `None` and the
empty string are falsy and skip parsing (the raw value survives); truthy
values go through `parse_time`. -/
def processTime : TimeOpt → Except String (Option TimeArg)
  | .absent => .ok none
  | .given t => (parse_time (.given t)).map (Option.map .t)
  | .lit s =>
    if s = "" then .ok (some (.s s))
    else (parse_time (.lit s)).map (Option.map .t)

/-- Observable outcome of one program invocation: process exit code
(0 normal, -1 after a parse failure's `sys.exit(-1)`, 1 after an uncaught
exception), the stdout and stderr lines, whether the workbook was ever
opened, whether `save` ran, and the on-disk grid afterwards (the input
grid unless a save wrote the mutated one). -/
structure MainOutcome where
  exitCode : Int
  stdout : List String
  stderr : List String
  opened : Bool
  saved : Bool
  fileGrid : Grid
deriving DecidableEq, Repr

/-- The `__main__` block after argparse: run the parse loop over the
attributes in order date, start, break_start, break_end, end (exiting
with the diagnostic on the first failure), then open the timesheet,
`enter`, render when `row` is truthy (a nonzero index), and save when
`updated` is true. -/
def runMain (g : Grid) (path : String) (dateA : DateArg)
    (startA endA bsA beA : TimeOpt) (pretty : Bool) : MainOutcome :=
  match processDate dateA with
  | .error msg => ⟨-1, [], [msg], false, false, g⟩
  | .ok day =>
  match processTime startA with
  | .error msg => ⟨-1, [], [msg], false, false, g⟩
  | .ok s =>
  match processTime bsA with
  | .error msg => ⟨-1, [], [msg], false, false, g⟩
  | .ok bs =>
  match processTime beA with
  | .error msg => ⟨-1, [], [msg], false, false, g⟩
  | .ok be =>
  match processTime endA with
  | .error msg => ⟨-1, [], [msg], false, false, g⟩
  | .ok e =>
  let ts := Timesheet.init path g
  match enter ts day s e bs be with
  | .error msg => ⟨1, [], [msg], true, false, g⟩
  | .ok (row, updated, ts1, errs) =>
    match row with
    | some (k' + 1) =>
      match printRow ts1 (k' + 1) pretty with
      | .error msg => ⟨1, [], errs ++ [msg], true, false, g⟩
      | .ok line =>
        if updated then
          ⟨0, [line], errs ++ (save ts1).2, true, true, (save ts1).1.grid⟩
        else
          ⟨0, [line], errs, true, false, g⟩
    | _ =>
      if updated then
        ⟨0, [], errs ++ (save ts1).2, true, true, (save ts1).1.grid⟩
      else
        ⟨0, [], errs, true, false, g⟩

/-! ### List-level helper lemmas -/

lemma getD_set_self {α} (l : List α) (n : Nat) (a d : α) (h : n < l.length) :
    (l.set n a).getD n d = a := by
  induction l generalizing n with
  | nil => simp at h
  | cons x xs ih =>
    cases n with
    | zero => rfl
    | succ m => simpa [List.getD] using ih m (by simpa using h)

lemma getD_set_ne {α} (l : List α) (n n' : Nat) (a d : α) (h : n' ≠ n) :
    (l.set n a).getD n' d = l.getD n' d := by
  induction l generalizing n n' with
  | nil => rfl
  | cons x xs ih =>
    cases n with
    | zero =>
      cases n' with
      | zero => exact absurd rfl h
      | succ m' => rfl
    | succ m =>
      cases n' with
      | zero => rfl
      | succ m' => simpa [List.getD] using ih m m' (fun hh => h (by rw [hh]))

lemma set_getD_self {α} (l : List α) (n : Nat) (d : α) (h : n < l.length) :
    l.set n (l.getD n d) = l := by
  induction l generalizing n with
  | nil => simp at h
  | cons x xs ih =>
    cases n with
    | zero => rfl
    | succ m => simpa [List.getD] using ih m (by simpa using h)

lemma set_set_self {α} (l : List α) (n : Nat) (a b : α) :
    (l.set n a).set n b = l.set n b := by
  induction l generalizing n with
  | nil => rfl
  | cons x xs ih =>
    cases n with
    | zero => rfl
    | succ m => simpa using ih m

lemma map_set {α β} (f : α → β) (l : List α) (n : Nat) (a : α) :
    (l.set n a).map f = (l.map f).set n (f a) := by
  induction l generalizing n with
  | nil => rfl
  | cons x xs ih =>
    cases n with
    | zero => rfl
    | succ m => simpa using ih m

lemma getD_map {α β} (f : α → β) (l : List α) (n : Nat) (d : α) (h : n < l.length) :
    (l.map f).getD n (f d) = f (l.getD n d) := by
  induction l generalizing n with
  | nil => simp at h
  | cons x xs ih =>
    cases n with
    | zero => rfl
    | succ m => simpa [List.getD] using ih m (by simpa using h)

/-! ### Row and column algebra -/

lemma getCol_setCol_self (c : Col) (v : CellValue) (r : RowCells) :
    getCol c (setCol c v r) = v := by
  cases c <;> rfl

lemma getCol_setCol_ne (c c' : Col) (v : CellValue) (r : RowCells) (h : c ≠ c') :
    getCol c (setCol c' v r) = getCol c r := by
  cases c <;> cases c' <;> first | rfl | exact absurd rfl h

lemma setCol_of_getCol (c : Col) (v : CellValue) (r : RowCells) (h : getCol c r = v) :
    setCol c v r = r := by
  cases c <;> cases r <;> simp_all [getCol, setCol]

/-! ### Grid write lemmas (in-bounds cases, the only ones the program's
successful runs reach) -/

lemma extendTo_of_lt (g : Grid) (n : Nat) (h : n < g.length) : extendTo g n = g := by
  simp [extendTo, h]

lemma length_writeAt (g : Grid) (n : Nat) (c : Col) (v : CellValue) (h : n < g.length) :
    (writeAt g n c v).length = g.length := by
  simp [writeAt, extendTo_of_lt g n h]

lemma cellD_writeAt_self (g : Grid) (n : Nat) (c : Col) (v : CellValue)
    (h : n < g.length) : cellD (writeAt g n c v) n c = v := by
  unfold cellD writeAt
  rw [extendTo_of_lt g n h, getD_set_self _ _ _ _ h, getCol_setCol_self]

lemma cellD_writeAt_ne (g : Grid) (n n' : Nat) (c c' : Col) (v : CellValue)
    (h : n < g.length) (hne : n' ≠ n ∨ c' ≠ c) :
    cellD (writeAt g n c v) n' c' = cellD g n' c' := by
  unfold cellD writeAt
  rw [extendTo_of_lt g n h]
  rcases eq_or_ne n' n with hn | hn
  · subst hn
    rcases hne with hn' | hc
    · exact absurd rfl hn'
    · rw [getD_set_self _ _ _ _ h, getCol_setCol_ne _ _ _ _ hc]
  · rw [getD_set_ne _ _ _ _ _ hn]

lemma writeAt_of_cellD (g : Grid) (n : Nat) (c : Col) (v : CellValue)
    (h : n < g.length) (hv : cellD g n c = v) : writeAt g n c v = g := by
  unfold writeAt
  rw [extendTo_of_lt g n h, setCol_of_getCol c v _ hv, set_getD_self _ _ _ h]

lemma columnSlice_writeAt_ne (g : Grid) (n : Nat) (c c' : Col) (v : CellValue)
    (h : n < g.length) (hc : c' ≠ c) :
    columnSlice (writeAt g n c v) c' = columnSlice g c' := by
  unfold columnSlice writeAt
  rw [extendTo_of_lt g n h, map_set, getCol_setCol_ne _ _ _ _ hc]
  have : getCol c' (g.getD n emptyRow) = (g.map (getCol c')).getD n (getCol c' emptyRow) :=
    (getD_map (getCol c') g n emptyRow h).symm
  rw [this, set_getD_self _ _ _ (by simpa using h)]

lemma length_columnSlice (g : Grid) (c : Col) : (columnSlice g c).length = g.length := by
  simp [columnSlice]

/-! ### Row lookup lemmas -/

lemma findRowIdx_none (day : PyDay) (l : List CellValue) (i : Nat)
    (h : ∀ v ∈ l, isDayMatch day v = false) : findRowIdx day l i = none := by
  induction l generalizing i with
  | nil => rfl
  | cons v rest ih =>
    have hv := h v (List.mem_cons_self v rest)
    simp [findRowIdx, hv]
    exact ih (i + 1) (fun w hw => h w (List.mem_cons_of_mem v hw))

lemma findRowIdx_some (day : PyDay) (l : List CellValue) (i k : Nat)
    (h : findRowIdx day l i = some k) :
    i ≤ k ∧ k - i < l.length ∧
      ∃ v, l.getD (k - i) CellValue.vNone = v ∧ isDayMatch day v = true := by
  induction l generalizing i with
  | nil => exact absurd h (by simp [findRowIdx])
  | cons v rest ih =>
    by_cases hm : isDayMatch day v = true
    · have : some i = some k := by simpa [findRowIdx, hm] using h
      obtain rfl : i = k := Option.some_injective _ this
      exact ⟨le_refl i, by simp, v, by simp, hm⟩
    · have h' : findRowIdx day rest (i + 1) = some k := by
        simpa [findRowIdx, hm] using h
      obtain ⟨hik, hlt, w, hw, hmatch⟩ := ih (i + 1) h'
      refine ⟨by omega, by simp; omega, w, ?_, hmatch⟩
      have hki : k - i = (k - (i + 1)) + 1 := by omega
      rw [hki]
      simpa [List.getD] using hw

/-! ### Invariants of the conditional-setter sequence -/

lemma setIf_ok_none (ts : Timesheet) (k : Nat) (c : Col) :
    setIf ts k c none = .ok ts := rfl

lemma setIf_ok_some (ts ts' : Timesheet) (k : Nat) (c : Col) (v : TimeArg)
    (h : setIf ts k c (some v) = .ok ts') :
    k ≠ 0 ∧ ts' = ⟨ts.filePath, writeAt ts.grid (k - 1) c v.toCell, true⟩ := by
  by_cases hk : k = 0
  · simp [setIf, setColumn, hk] at h
  · simp only [setIf, setColumn, if_neg hk, Except.ok.injEq] at h
    exact ⟨hk, h.symm⟩

lemma applyFields_inv (k : Nat) (L : List (Option TimeArg × Col)) (ts ts' : Timesheet)
    (hk : k ≤ ts.grid.length) (h : applyFields k L ts = .ok ts') :
    ts'.filePath = ts.filePath ∧ ts'.grid.length = ts.grid.length ∧
      (ts.dirty = true → ts'.dirty = true) := by
  induction L generalizing ts with
  | nil =>
    obtain rfl : ts = ts' := by simpa [applyFields] using h
    exact ⟨rfl, rfl, fun hd => hd⟩
  | cons p rest ih =>
    obtain ⟨arg, c⟩ := p
    cases harg : setIf ts k c arg with
    | error e => simp [applyFields, harg] at h
    | ok ts1 =>
      have h' : applyFields k rest ts1 = .ok ts' := by simpa [applyFields, harg] using h
      cases arg with
      | none =>
        obtain rfl : ts = ts1 := by simpa [setIf] using harg
        exact ih ts hk h'
      | some v =>
        obtain ⟨hk0, rfl⟩ := setIf_ok_some ts _ k c v harg
        have hn : k - 1 < ts.grid.length := by omega
        have hlen : (writeAt ts.grid (k - 1) c v.toCell).length = ts.grid.length :=
          length_writeAt _ _ _ _ hn
        obtain ⟨hfp, hl, hd⟩ := ih _ (by simpa [hlen] using hk) h'
        exact ⟨hfp, by simpa [hlen] using hl, fun _ => hd rfl⟩

lemma applyFields_colSlice (k : Nat) (L : List (Option TimeArg × Col)) (ts ts' : Timesheet)
    (hk : k ≤ ts.grid.length) (hcols : ∀ p ∈ L, p.2 ≠ colDate)
    (h : applyFields k L ts = .ok ts') :
    columnSlice ts'.grid colDate = columnSlice ts.grid colDate := by
  induction L generalizing ts with
  | nil =>
    obtain rfl : ts = ts' := by simpa [applyFields] using h
    rfl
  | cons p rest ih =>
    obtain ⟨arg, c⟩ := p
    cases harg : setIf ts k c arg with
    | error e => simp [applyFields, harg] at h
    | ok ts1 =>
      have h' : applyFields k rest ts1 = .ok ts' := by simpa [applyFields, harg] using h
      have hrest : ∀ p ∈ rest, p.2 ≠ colDate :=
        fun p hp => hcols p (List.mem_cons_of_mem _ hp)
      cases arg with
      | none =>
        obtain rfl : ts = ts1 := by simpa [setIf] using harg
        exact ih ts hk hrest h'
      | some v =>
        obtain ⟨hk0, rfl⟩ := setIf_ok_some ts _ k c v harg
        have hn : k - 1 < ts.grid.length := by omega
        have hc : colDate ≠ c := (hcols (some v, c) (List.mem_cons_self _ _)).symm
        have hlen : (writeAt ts.grid (k - 1) c v.toCell).length = ts.grid.length :=
          length_writeAt _ _ _ _ hn
        have := ih _ (by simpa [hlen] using hk) hrest h'
        rw [this]
        exact columnSlice_writeAt_ne _ _ _ _ _ hn hc

lemma applyFields_cellD_other_col (k : Nat) (L : List (Option TimeArg × Col))
    (ts ts' : Timesheet) (c : Col)
    (hk : k ≤ ts.grid.length) (hcols : ∀ p ∈ L, p.2 ≠ c)
    (h : applyFields k L ts = .ok ts') :
    ∀ n, cellD ts'.grid n c = cellD ts.grid n c := by
  induction L generalizing ts with
  | nil =>
    obtain rfl : ts = ts' := by simpa [applyFields] using h
    exact fun _ => rfl
  | cons p rest ih =>
    obtain ⟨arg, c'⟩ := p
    cases harg : setIf ts k c' arg with
    | error e => simp [applyFields, harg] at h
    | ok ts1 =>
      have h' : applyFields k rest ts1 = .ok ts' := by simpa [applyFields, harg] using h
      have hrest : ∀ p ∈ rest, p.2 ≠ c :=
        fun p hp => hcols p (List.mem_cons_of_mem _ hp)
      cases arg with
      | none =>
        obtain rfl : ts = ts1 := by simpa [setIf] using harg
        exact ih ts hk hrest h'
      | some v =>
        obtain ⟨hk0, rfl⟩ := setIf_ok_some ts _ k c' v harg
        have hn : k - 1 < ts.grid.length := by omega
        have hc : c ≠ c' := fun hcc =>
          (hcols (some v, c') (List.mem_cons_self _ _)) (by rw [hcc])
        have hlen : (writeAt ts.grid (k - 1) c' v.toCell).length = ts.grid.length :=
          length_writeAt _ _ _ _ hn
        intro n
        rw [ih _ (by simpa [hlen] using hk) hrest h' n]
        exact cellD_writeAt_ne _ _ _ _ _ _ hn (Or.inr hc)

lemma applyFields_dirty_mono (k : Nat) (L : List (Option TimeArg × Col))
    (ts ts' : Timesheet) (h : applyFields k L ts = .ok ts')
    (hd : ts.dirty = true) : ts'.dirty = true := by
  induction L generalizing ts with
  | nil =>
    obtain rfl : ts = ts' := by simpa [applyFields] using h
    exact hd
  | cons p rest ih =>
    obtain ⟨arg, c⟩ := p
    cases harg : setIf ts k c arg with
    | error e => simp [applyFields, harg] at h
    | ok ts1 =>
      have h' : applyFields k rest ts1 = .ok ts' := by simpa [applyFields, harg] using h
      cases arg with
      | none =>
        obtain rfl : ts = ts1 := by simpa [setIf] using harg
        exact ih ts h' hd
      | some v =>
        obtain ⟨hk0, rfl⟩ := setIf_ok_some ts _ k c v harg
        exact ih _ h' rfl

lemma applyFields_dirty_of_present (k : Nat) (L : List (Option TimeArg × Col))
    (ts ts' : Timesheet) (h : applyFields k L ts = .ok ts')
    (hp : ∃ p ∈ L, p.1.isSome) : ts'.dirty = true := by
  induction L generalizing ts with
  | nil => simp at hp
  | cons p rest ih =>
    obtain ⟨arg, c⟩ := p
    cases harg : setIf ts k c arg with
    | error e => simp [applyFields, harg] at h
    | ok ts1 =>
      have h' : applyFields k rest ts1 = .ok ts' := by simpa [applyFields, harg] using h
      cases arg with
      | none =>
        obtain rfl : ts = ts1 := by simpa [setIf] using harg
        rcases hp with ⟨q, hq, hqs⟩
        rcases List.mem_cons.mp hq with rfl | hq'
        · simp at hqs
        · exact ih ts h' ⟨q, hq', hqs⟩
      | some v =>
        obtain ⟨hk0, rfl⟩ := setIf_ok_some ts _ k c v harg
        exact applyFields_dirty_mono k rest _ ts' h' rfl

lemma applyFields_idem (k : Nat) (L : List (Option TimeArg × Col)) (ts ts' : Timesheet)
    (hk : k ≤ ts.grid.length) (hnd : (L.map Prod.snd).Nodup)
    (h : applyFields k L ts = .ok ts') :
    applyFields k L ts' = .ok ts' := by
  induction L generalizing ts with
  | nil =>
    obtain rfl : ts = ts' := by simpa [applyFields] using h
    rfl
  | cons p rest ih =>
    obtain ⟨arg, c⟩ := p
    cases harg : setIf ts k c arg with
    | error e => simp [applyFields, harg] at h
    | ok ts1 =>
      have h' : applyFields k rest ts1 = .ok ts' := by simpa [applyFields, harg] using h
      have hnd' : (rest.map Prod.snd).Nodup := (List.nodup_cons.mp (by simpa using hnd)).2
      have hnotin : c ∉ rest.map Prod.snd := (List.nodup_cons.mp (by simpa using hnd)).1
      have hrestne : ∀ p ∈ rest, p.2 ≠ c := by
        intro q hq hcq
        exact hnotin (hcq ▸ List.mem_map_of_mem Prod.snd hq)
      cases arg with
      | none =>
        obtain rfl : ts = ts1 := by simpa [setIf] using harg
        have := ih ts hk hnd' h'
        simpa [applyFields, setIf] using this
      | some v =>
        obtain ⟨hk0, rfl⟩ := setIf_ok_some ts _ k c v harg
        have hn : k - 1 < ts.grid.length := by omega
        set ts1 : Timesheet := ⟨ts.filePath, writeAt ts.grid (k - 1) c v.toCell, true⟩ with hts1
        have hk1 : k ≤ ts1.grid.length := by
          simpa [hts1, length_writeAt _ _ _ _ hn] using hk
        -- the written cell still holds the value after the remaining fields run
        have hcell1 : cellD ts1.grid (k - 1) c = v.toCell := by
          simpa [hts1] using cellD_writeAt_self ts.grid (k - 1) c v.toCell hn
        have hcell : cellD ts'.grid (k - 1) c = v.toCell := by
          rw [applyFields_cellD_other_col k rest ts1 ts' c hk1 hrestne h' (k - 1)]
          exact hcell1
        obtain ⟨hfp, hlen, hdirty⟩ := applyFields_inv k rest ts1 ts' hk1 h'
        have hd' : ts'.dirty = true := hdirty rfl
        have hn' : k - 1 < ts'.grid.length := by
          rw [hlen]; simpa [hts1, length_writeAt _ _ _ _ hn] using hn
        have hset : setColumn ts' c k v.toCell = .ok ts' := by
          have hwa : writeAt ts'.grid (k - 1) c v.toCell = ts'.grid :=
            writeAt_of_cellD _ _ _ _ hn' hcell
          obtain ⟨fp, gr, di⟩ := ts'
          simp only [setColumn, if_neg hk0, hwa]
          simp_all
        have hrest' : applyFields k rest ts' = .ok ts' := ih _ hk1 hnd' h'
        simp [applyFields, setIf, hset, hrest']

/-! ### Rendering lemmas -/

lemma printRow_ok (ts : Timesheet) (k : Nat) (pretty : Bool) (hk : k ≠ 0) :
    printRow ts k pretty = .ok (renderStr ts.grid k pretty) := by
  cases pretty <;>
    simp [printRow, getColumnCell, hk, renderStr, rowDictAt, compactLineOf,
      bind, Except.bind, pure, Except.pure]

lemma compactLineOf_rowDictAt (g : Grid) (k : Nat) :
    compactLineOf (rowDictAt g k) = specCompact g k := by
  unfold compactLineOf rowDictAt specCompact specFieldEntry
  by_cases hb : cellD g (k - 1) colStart = CellValue.vNone <;>
  by_cases hc : cellD g (k - 1) colBreakStart = CellValue.vNone <;>
  by_cases hd : cellD g (k - 1) colBreakEnd = CellValue.vNone <;>
  by_cases he : cellD g (k - 1) colEnd = CellValue.vNone <;>
  cases hA : cellD g (k - 1) colDate <;>
  simp [List.lookup, List.filter, hb, hc, hd, he, CellValue.str] <;>
  try rfl

/-! ### Claims -/

/-- C1: the spec's end-to-end scenario fails on the code.  With a sheet
whose second row (A2) holds the datetime 2024-03-01 and empty time cells,
invoking the program with `--date 2024-03-01 --start 09:00 --end 17:30`
does NOT set that row's start and end: `_get_row_index` counts rows with
`enumerate` from 0 (yielding 1 for spreadsheet row 2) while
`_set_column`/`_get_column` build the 1-based address `"B"+"1"`, so the
writes land in spreadsheet row 1 (the 2024-02-29 row), the printed line
is `2024-02-29 -> start@09:00:00, end@17:30:00` instead of the claimed
`2024-03-01 -> ...`, and the save persists the wrongly-mutated grid with
the matched row untouched.  (Were the matching row the sheet's first,
the write would address the invalid coordinate "B0" and crash.) -/
theorem claim_c1_scenario_off_by_one :
    runMain
      [⟨.vDatetime ⟨2024,2,29⟩ ⟨0,0,0⟩, .vNone, .vNone, .vNone, .vNone⟩,
       ⟨.vDatetime ⟨2024,3,1⟩ ⟨0,0,0⟩, .vNone, .vNone, .vNone, .vNone⟩]
      "sheet.xlsx" (.lit "2024-03-01") (.lit "09:00") (.lit "17:30") .absent .absent false =
    ⟨0, ["2024-02-29 -> start@09:00:00, end@17:30:00"],
     ["Timesheet updated: sheet.xlsx"], true, true,
     [⟨.vDatetime ⟨2024,2,29⟩ ⟨0,0,0⟩, .vTime ⟨9,0,0⟩, .vNone, .vNone, .vTime ⟨17,30,0⟩⟩,
      ⟨.vDatetime ⟨2024,3,1⟩ ⟨0,0,0⟩, .vNone, .vNone, .vNone, .vNone⟩]⟩ := by
  decide

/-- C2: `_get_row_index` does return the position of the first row whose
date-column cell is a datetime with date component equal to `day`,
counting the scan from 0 — but that returned index does NOT address the
matching row for subsequent reads and writes.  On a sheet with
2024-02-29 in A1 and 2024-03-01 in A2, the lookup for 2024-03-01 yields
index 1 (the matching cell is scan position 1), yet `_get_column`
resolves that index to the 1-based address "A1" and reads the
2024-02-29 cell, and `_set_column` likewise writes row 1. -/
theorem claim_c2_index_misaddresses_row :
    (getRowIndex
        (Timesheet.init "book.xlsx"
          [⟨.vDatetime ⟨2024,2,29⟩ ⟨0,0,0⟩, .vNone, .vNone, .vNone, .vNone⟩,
           ⟨.vDatetime ⟨2024,3,1⟩ ⟨0,0,0⟩, .vNone, .vNone, .vNone, .vNone⟩])
        (.day ⟨2024,3,1⟩)).1 = some 1 ∧
    (columnSlice
        [⟨.vDatetime ⟨2024,2,29⟩ ⟨0,0,0⟩, .vNone, .vNone, .vNone, .vNone⟩,
         ⟨.vDatetime ⟨2024,3,1⟩ ⟨0,0,0⟩, .vNone, .vNone, .vNone, .vNone⟩] colDate).getD 1
      CellValue.vNone = .vDatetime ⟨2024,3,1⟩ ⟨0,0,0⟩ ∧
    getColumnCell
        [⟨.vDatetime ⟨2024,2,29⟩ ⟨0,0,0⟩, .vNone, .vNone, .vNone, .vNone⟩,
         ⟨.vDatetime ⟨2024,3,1⟩ ⟨0,0,0⟩, .vNone, .vNone, .vNone, .vNone⟩] colDate 1 =
      .ok (.vDatetime ⟨2024,2,29⟩ ⟨0,0,0⟩) ∧
    setColumn
        (Timesheet.init "book.xlsx"
          [⟨.vDatetime ⟨2024,2,29⟩ ⟨0,0,0⟩, .vNone, .vNone, .vNone, .vNone⟩,
           ⟨.vDatetime ⟨2024,3,1⟩ ⟨0,0,0⟩, .vNone, .vNone, .vNone, .vNone⟩])
        colStart 1 (.vTime ⟨9,0,0⟩) =
      .ok ⟨"book.xlsx",
        [⟨.vDatetime ⟨2024,2,29⟩ ⟨0,0,0⟩, .vTime ⟨9,0,0⟩, .vNone, .vNone, .vNone⟩,
         ⟨.vDatetime ⟨2024,3,1⟩ ⟨0,0,0⟩, .vNone, .vNone, .vNone, .vNone⟩], true⟩ := by
  refine ⟨by decide, by decide, by decide, by decide⟩

/-- C4: the frame claim fails on the code for the same off-by-one reason.
With the matched row at spreadsheet row 2 (index 1 from the 0-based
scan), `enter` with all four fields absent indeed performs zero writes
and leaves dirty false; but `enter` with exactly `start` present does not
write the located row's start cell — the located (matching) row's start
cell keeps its prior empty value and the start cell of the preceding row
is written instead (and when the match is the sheet's first row, the
single-field call raises on the invalid coordinate "B0" and writes
nothing at all). -/
theorem claim_c4_one_field_wrong_row :
    (enter
        (Timesheet.init "f.xlsx"
          [⟨.vDatetime ⟨2024,2,29⟩ ⟨0,0,0⟩, .vNone, .vNone, .vNone, .vNone⟩,
           ⟨.vDatetime ⟨2024,3,1⟩ ⟨0,0,0⟩, .vNone, .vNone, .vNone, .vNone⟩])
        (.day ⟨2024,3,1⟩) none none none none =
      .ok (some 1, false,
        Timesheet.init "f.xlsx"
          [⟨.vDatetime ⟨2024,2,29⟩ ⟨0,0,0⟩, .vNone, .vNone, .vNone, .vNone⟩,
           ⟨.vDatetime ⟨2024,3,1⟩ ⟨0,0,0⟩, .vNone, .vNone, .vNone, .vNone⟩], [])) ∧
    (enter
        (Timesheet.init "f.xlsx"
          [⟨.vDatetime ⟨2024,2,29⟩ ⟨0,0,0⟩, .vNone, .vNone, .vNone, .vNone⟩,
           ⟨.vDatetime ⟨2024,3,1⟩ ⟨0,0,0⟩, .vNone, .vNone, .vNone, .vNone⟩])
        (.day ⟨2024,3,1⟩) (some (.t ⟨9,0,0⟩)) none none none =
      .ok (some 1, true,
        ⟨"f.xlsx",
         [⟨.vDatetime ⟨2024,2,29⟩ ⟨0,0,0⟩, .vTime ⟨9,0,0⟩, .vNone, .vNone, .vNone⟩,
          ⟨.vDatetime ⟨2024,3,1⟩ ⟨0,0,0⟩, .vNone, .vNone, .vNone, .vNone⟩], true⟩, [])) ∧
    (enter
        (Timesheet.init "f.xlsx"
          [⟨.vDatetime ⟨2024,3,1⟩ ⟨0,0,0⟩, .vNone, .vNone, .vNone, .vNone⟩])
        (.day ⟨2024,3,1⟩) (some (.t ⟨9,0,0⟩)) none none none =
      .error "cell coordinate 0 is invalid") := by
  refine ⟨by decide, by decide, by decide⟩

/-- C3: for every document and every day absent from the date column (no
date-column cell is a datetime whose date component equals the day),
`enter` raises nothing, mutates nothing (the whole editor state,
including every cell and the dirty flag, is returned unchanged), returns
`(None, False)` — no row, no mutation — and emits exactly the stderr
diagnostic naming the missing day and the file path. -/
theorem claim_c3_absent_day_soft_miss (ts : Timesheet) (day : Date)
    (s e bs be : Option TimeArg)
    (habs : ∀ v ∈ columnSlice ts.grid colDate, ∀ t, v ≠ CellValue.vDatetime day t) :
    enter ts (.day day) s e bs be =
      .ok (none, false, ts,
        ["Could not find row for day " ++ day.str ++ " in " ++ ts.filePath]) := by
  have hm : ∀ v ∈ columnSlice ts.grid colDate, isDayMatch (.day day) v = false := by
    intro v hv
    cases v with
    | vDatetime d t =>
      have : d ≠ day := fun hd => habs _ hv t (by rw [hd])
      simpa [isDayMatch] using this
    | vNone => rfl
    | vDate d => rfl
    | vTime t => rfl
    | vStr ss => rfl
    | vInt n => rfl
  have hfi : findRowIdx (.day day) (columnSlice ts.grid colDate) 0 = none :=
    findRowIdx_none _ _ _ hm
  simp [enter, getRowIndex, hfi, PyDay.render]

/-- C3 witness: a concrete sheet whose date column holds the target day
only as a plain (date-typed) value still reports the miss. -/
theorem claim_c3_witness :
    enter (Timesheet.init "w.xlsx"
        [⟨.vDate ⟨2030,1,1⟩, .vNone, .vNone, .vNone, .vNone⟩])
      (.day ⟨2030,1,1⟩) none none none none =
    .ok (none, false,
      Timesheet.init "w.xlsx" [⟨.vDate ⟨2030,1,1⟩, .vNone, .vNone, .vNone, .vNone⟩],
      ["Could not find row for day " ++ (⟨2030,1,1⟩ : Date).str ++ " in " ++ "w.xlsx"]) :=
  claim_c3_absent_day_soft_miss _ _ _ _ _ _ (by
    intro v hv t
    simp [columnSlice, Timesheet.init, getCol, colDate] at hv
    subst hv
    simp)

/-- C6: for every state and every row index the reads accept (any nonzero
index), the non-pretty rendering equals the spec-shaped compact line:
the row's date is the leading label, followed by `field@value` for
exactly the present time fields in the fixed order start, break_start,
break_end, end, absent (None) fields omitted, and no `date@...` pair is
ever produced (the spec-side right-hand definition emits entries only
for the four time fields). -/
theorem claim_c6_compact_render (ts : Timesheet) (k : Nat) (hk : k ≠ 0) :
    printRow ts k false = .ok (specCompact ts.grid k) := by
  rw [printRow_ok ts k false hk]
  simp [renderStr, compactLineOf_rowDictAt]

/-- C6 witness: a concrete row with start and end set but breaks empty
renders as the compact line with exactly those two fields. -/
theorem claim_c6_witness :
    printRow
      (Timesheet.init "r.xlsx"
        [⟨.vDatetime ⟨2024,3,1⟩ ⟨0,0,0⟩, .vTime ⟨9,0,0⟩, .vNone, .vNone, .vTime ⟨17,30,0⟩⟩])
      1 false =
      .ok (specCompact
        [⟨.vDatetime ⟨2024,3,1⟩ ⟨0,0,0⟩, .vTime ⟨9,0,0⟩, .vNone, .vNone, .vTime ⟨17,30,0⟩⟩] 1) ∧
    specCompact
      [⟨.vDatetime ⟨2024,3,1⟩ ⟨0,0,0⟩, .vTime ⟨9,0,0⟩, .vNone, .vNone, .vTime ⟨17,30,0⟩⟩] 1 =
      "2024-03-01 -> start@09:00:00, end@17:30:00" :=
  ⟨claim_c6_compact_render _ 1 (by decide), by decide⟩

/-- C8 counterexample: the claim "whenever enter locates a row (any row
index), the adapter renders that row" fails at row index 0.  On a sheet
whose first row matches the day, `enter` locates the row (returns index
0 with no mutation), but `__main__` renders only under the truthiness
test `if row:`, which is false for 0, so nothing is printed. -/
theorem claim_c8_counterexample :
    (enter
        (Timesheet.init "c.xlsx"
          [⟨.vDatetime ⟨2024,3,1⟩ ⟨0,0,0⟩, .vNone, .vNone, .vNone, .vNone⟩])
        (.day ⟨2024,3,1⟩) none none none none =
      .ok (some 0, false,
        Timesheet.init "c.xlsx"
          [⟨.vDatetime ⟨2024,3,1⟩ ⟨0,0,0⟩, .vNone, .vNone, .vNone, .vNone⟩], [])) ∧
    (runMain [⟨.vDatetime ⟨2024,3,1⟩ ⟨0,0,0⟩, .vNone, .vNone, .vNone, .vNone⟩]
        "c.xlsx" (.given ⟨2024,3,1⟩) .absent .absent .absent .absent false).stdout = [] :=
  ⟨by decide, by decide⟩

/-- C8 (amended): after the argument loop succeeds, the adapter renders
the row `enter` located exactly when its index is nonzero (`if row:`
treats index 0 like a miss), printing that row's rendering to stdout;
and it invokes `save` if and only if the dirty state `enter` returned is
true. -/
theorem claim_c8_adapter_amended (g : Grid) (path : String) (dateA : DateArg)
    (startA endA bsA beA : TimeOpt) (pretty : Bool) (day : PyDay)
    (s e bs be : Option TimeArg) (row : Option Nat) (upd : Bool)
    (ts1 : Timesheet) (errs : List String)
    (h1 : processDate dateA = .ok day)
    (h2 : processTime startA = .ok s)
    (h3 : processTime bsA = .ok bs)
    (h4 : processTime beA = .ok be)
    (h5 : processTime endA = .ok e)
    (h6 : enter (Timesheet.init path g) day s e bs be = .ok (row, upd, ts1, errs)) :
    ((runMain g path dateA startA endA bsA beA pretty).saved = upd) ∧
    (∀ k, row = some k → k ≠ 0 →
      (runMain g path dateA startA endA bsA beA pretty).stdout =
        [renderStr ts1.grid k pretty]) ∧
    (row = some 0 →
      (runMain g path dateA startA endA bsA beA pretty).stdout = []) ∧
    (row = none →
      (runMain g path dateA startA endA bsA beA pretty).stdout = []) := by
  cases row with
  | none =>
    cases upd <;> simp [runMain, h1, h2, h3, h4, h5, h6, save]
  | some k =>
    cases k with
    | zero =>
      cases upd <;> simp [runMain, h1, h2, h3, h4, h5, h6, save]
    | succ k' =>
      have hpr := printRow_ok ts1 (k' + 1) pretty (Nat.succ_ne_zero k')
      cases upd <;> simp [runMain, h1, h2, h3, h4, h5, h6, hpr, save]

/-- C8 witness: a located nonzero row is rendered to stdout, and with no
field supplied (dirty false) no save is invoked. -/
theorem claim_c8_witness :
    ((runMain
        [⟨.vDatetime ⟨2024,2,29⟩ ⟨0,0,0⟩, .vNone, .vNone, .vNone, .vNone⟩,
         ⟨.vDatetime ⟨2024,3,1⟩ ⟨0,0,0⟩, .vNone, .vNone, .vNone, .vNone⟩]
        "a.xlsx" (.given ⟨2024,3,1⟩) .absent .absent .absent .absent false).stdout =
      [renderStr
        [⟨.vDatetime ⟨2024,2,29⟩ ⟨0,0,0⟩, .vNone, .vNone, .vNone, .vNone⟩,
         ⟨.vDatetime ⟨2024,3,1⟩ ⟨0,0,0⟩, .vNone, .vNone, .vNone, .vNone⟩] 1 false]) ∧
    ((runMain
        [⟨.vDatetime ⟨2024,2,29⟩ ⟨0,0,0⟩, .vNone, .vNone, .vNone, .vNone⟩,
         ⟨.vDatetime ⟨2024,3,1⟩ ⟨0,0,0⟩, .vNone, .vNone, .vNone, .vNone⟩]
        "a.xlsx" (.given ⟨2024,3,1⟩) .absent .absent .absent .absent false).saved = false) :=
  ⟨(claim_c8_adapter_amended
      [⟨.vDatetime ⟨2024,2,29⟩ ⟨0,0,0⟩, .vNone, .vNone, .vNone, .vNone⟩,
       ⟨.vDatetime ⟨2024,3,1⟩ ⟨0,0,0⟩, .vNone, .vNone, .vNone, .vNone⟩]
      "a.xlsx" (.given ⟨2024,3,1⟩) .absent .absent .absent .absent
      false (.day ⟨2024,3,1⟩) none none none none (some 1) false
      (Timesheet.init "a.xlsx"
        [⟨.vDatetime ⟨2024,2,29⟩ ⟨0,0,0⟩, .vNone, .vNone, .vNone, .vNone⟩,
         ⟨.vDatetime ⟨2024,3,1⟩ ⟨0,0,0⟩, .vNone, .vNone, .vNone, .vNone⟩]) []
      rfl rfl rfl rfl rfl (by decide)).2.1 1 rfl (by decide),
   (claim_c8_adapter_amended
      [⟨.vDatetime ⟨2024,2,29⟩ ⟨0,0,0⟩, .vNone, .vNone, .vNone, .vNone⟩,
       ⟨.vDatetime ⟨2024,3,1⟩ ⟨0,0,0⟩, .vNone, .vNone, .vNone, .vNone⟩]
      "a.xlsx" (.given ⟨2024,3,1⟩) .absent .absent .absent .absent
      false (.day ⟨2024,3,1⟩) none none none none (some 1) false
      (Timesheet.init "a.xlsx"
        [⟨.vDatetime ⟨2024,2,29⟩ ⟨0,0,0⟩, .vNone, .vNone, .vNone, .vNone⟩,
         ⟨.vDatetime ⟨2024,3,1⟩ ⟨0,0,0⟩, .vNone, .vNone, .vNone, .vNone⟩]) []
      rfl rfl rfl rfl rfl (by decide)).1⟩

/-- C9 counterexample: the fatal-input claim fails for the empty string,
which does not parse as `HH:MM` but is falsy, so the `__main__` loop's
`if value:` skips `parse_time` entirely and the raw `""` flows on: the
program exits 0, the file is opened, the located-index row's start cell
is overwritten with the string `""`, and the mutation is saved — no
diagnostic, no nonzero exit, file touched. -/
theorem claim_c9_counterexample :
    parseTimeStr "" = none ∧
    runMain
      [⟨.vDatetime ⟨2024,2,29⟩ ⟨0,0,0⟩, .vNone, .vNone, .vNone, .vNone⟩,
       ⟨.vDatetime ⟨2024,3,1⟩ ⟨0,0,0⟩, .vNone, .vNone, .vNone, .vNone⟩]
      "t.xlsx" (.given ⟨2024,3,1⟩) (.lit "") .absent .absent .absent false =
    ⟨0, ["2024-02-29 -> start@"], ["Timesheet updated: t.xlsx"], true, true,
     [⟨.vDatetime ⟨2024,2,29⟩ ⟨0,0,0⟩, .vStr "", .vNone, .vNone, .vNone⟩,
      ⟨.vDatetime ⟨2024,3,1⟩ ⟨0,0,0⟩, .vNone, .vNone, .vNone, .vNone⟩]⟩ :=
  ⟨by decide, by decide⟩

/-- C9 (amended): for every NONEMPTY date argument that does not parse as
`YYYY-MM-DD`, and every nonempty time argument (in any of the four
positions) that does not parse as `HH:MM`, the program prints the stderr
diagnostic naming the offending literal and terminates with exit status
-1 before opening or mutating the file (the empty string instead
bypasses parsing, per the counterexample). -/
theorem claim_c9_malformed_fatal (g : Grid) (path : String) (pretty : Bool)
    (d : Date) (sb : String) (hne : sb ≠ "") :
    (parseDateStr sb = none → ∀ startA endA bsA beA,
      runMain g path (.lit sb) startA endA bsA beA pretty =
        ⟨-1, [], ["Invalid day: " ++ sb], false, false, g⟩) ∧
    (parseTimeStr sb = none → ∀ endA bsA beA,
      runMain g path (.given d) (.lit sb) endA bsA beA pretty =
        ⟨-1, [], ["Invalid time: " ++ sb], false, false, g⟩) ∧
    (parseTimeStr sb = none → ∀ endA beA,
      runMain g path (.given d) .absent endA (.lit sb) beA pretty =
        ⟨-1, [], ["Invalid time: " ++ sb], false, false, g⟩) ∧
    (parseTimeStr sb = none → ∀ endA,
      runMain g path (.given d) .absent endA .absent (.lit sb) pretty =
        ⟨-1, [], ["Invalid time: " ++ sb], false, false, g⟩) ∧
    (parseTimeStr sb = none →
      runMain g path (.given d) .absent (.lit sb) .absent .absent pretty =
        ⟨-1, [], ["Invalid time: " ++ sb], false, false, g⟩) := by
  refine ⟨?_, ?_, ?_, ?_, ?_⟩
  · intro hpd startA endA bsA beA
    simp [runMain, processDate, parse_date, Except.map, hne, hpd]
  · intro hpt endA bsA beA
    simp [runMain, processDate, parse_date, processTime, parse_time, Except.map, hne, hpt]
  · intro hpt endA beA
    simp [runMain, processDate, parse_date, processTime, parse_time, Except.map, hne, hpt]
  · intro hpt endA
    simp [runMain, processDate, parse_date, processTime, parse_time, Except.map, hne, hpt]
  · intro hpt
    simp [runMain, processDate, parse_date, processTime, parse_time, Except.map, hne, hpt]

/-- C9 witness: the spec's own scenario literal `9am`, both as a date and
as a start time, is fatal with the naming diagnostic, exit -1, and the
file untouched and never opened. -/
theorem claim_c9_witness :
    (runMain [] "x.xlsx" (.lit "9am") .absent .absent .absent .absent false =
      ⟨-1, [], ["Invalid day: " ++ "9am"], false, false, []⟩) ∧
    (runMain [] "x.xlsx" (.given ⟨2024,3,1⟩) (.lit "9am") .absent .absent .absent false =
      ⟨-1, [], ["Invalid time: " ++ "9am"], false, false, []⟩) :=
  ⟨(claim_c9_malformed_fatal [] "x.xlsx" false ⟨2024,3,1⟩ "9am" (by decide)).1
      (by decide) .absent .absent .absent .absent,
   (claim_c9_malformed_fatal [] "x.xlsx" false ⟨2024,3,1⟩ "9am" (by decide)).2.1
      (by decide) .absent .absent .absent⟩

/-- C10: the row lookup matches only datetime-typed date cells.  First,
whenever `_get_row_index` returns an index, the cell at that scan
position is a datetime whose date component is the target day.  Second,
if no date-column cell is datetime-typed with that date — even when the
day is present as a plain date value, as text, as a number, or any other
non-datetime value — the lookup reports not-found with its diagnostic. -/
theorem claim_c10_only_datetime_matches :
    (∀ (ts : Timesheet) (day : Date) (k : Nat),
      (getRowIndex ts (.day day)).1 = some k →
        ∃ t, (columnSlice ts.grid colDate).getD k CellValue.vNone =
          CellValue.vDatetime day t) ∧
    (∀ (ts : Timesheet) (day : Date),
      (∀ v ∈ columnSlice ts.grid colDate, ∀ t, v ≠ CellValue.vDatetime day t) →
        getRowIndex ts (.day day) =
          (none, ["Could not find row for day " ++ day.str ++ " in " ++ ts.filePath])) := by
  constructor
  · intro ts day k h
    cases hfi : findRowIdx (.day day) (columnSlice ts.grid colDate) 0 with
    | none => simp [getRowIndex, hfi] at h
    | some k' =>
      have hk' : k' = k := by simpa [getRowIndex, hfi] using h
      subst hk'
      obtain ⟨-, -, v, hv, hmatch⟩ := findRowIdx_some _ _ _ _ hfi
      cases v with
      | vDatetime d t =>
        have hd : d = day := by simpa [isDayMatch] using hmatch
        exact ⟨t, by simpa [hd] using hv⟩
      | vNone => simp [isDayMatch] at hmatch
      | vDate d => simp [isDayMatch] at hmatch
      | vTime t => simp [isDayMatch] at hmatch
      | vStr ss => simp [isDayMatch] at hmatch
      | vInt n => simp [isDayMatch] at hmatch
  · intro ts day habs
    have hm : ∀ v ∈ columnSlice ts.grid colDate, isDayMatch (.day day) v = false := by
      intro v hv
      cases v with
      | vDatetime d t =>
        have : d ≠ day := fun hd => habs _ hv t (by rw [hd])
        simpa [isDayMatch] using this
      | vNone => rfl
      | vDate d => rfl
      | vTime t => rfl
      | vStr ss => rfl
      | vInt n => rfl
    have hfi : findRowIdx (.day day) (columnSlice ts.grid colDate) 0 = none :=
      findRowIdx_none _ _ _ hm
    simp [getRowIndex, hfi, PyDay.render]

/-- C5: `enter` is idempotent.  Whenever a call succeeds with result
`(row, dirty, state)`, re-running it on that state with the identical
arguments succeeds with the very same result — every cell has the same
final value as after one call, and the returned dirty flag is the same
after the second call as after the first; moreover when a row was found
and at least one time field was supplied, that flag is true both times
(writes are unconditional). -/
theorem claim_c5_enter_idempotent (ts : Timesheet) (day : PyDay)
    (s e bs be : Option TimeArg) (row : Option Nat) (d : Bool)
    (ts' : Timesheet) (errs : List String)
    (h : enter ts day s e bs be = .ok (row, d, ts', errs)) :
    enter ts' day s e bs be = .ok (row, d, ts', errs) ∧
      (row.isSome → (s.isSome ∨ e.isSome ∨ bs.isSome ∨ be.isSome) → d = true) := by
  cases hfi : findRowIdx day (columnSlice ts.grid colDate) 0 with
  | none =>
    simp [enter, getRowIndex, hfi] at h
    obtain ⟨rfl, rfl, rfl, rfl⟩ := h
    refine ⟨by simp [enter, getRowIndex, hfi], by simp⟩
  | some k =>
    have hk : k < ts.grid.length := by
      obtain ⟨-, hlt, -⟩ := findRowIdx_some _ _ _ _ hfi
      simpa [length_columnSlice] using hlt
    cases happ : applyFields k (enterFields s e bs be) ts with
    | error msg => simp [enter, getRowIndex, hfi, happ] at h
    | ok ts4 =>
      simp [enter, getRowIndex, hfi, happ] at h
      obtain ⟨rfl, rfl, rfl, rfl⟩ := h
      have hcols : ∀ p ∈ enterFields s e bs be, p.2 ≠ colDate := by
        intro p hp
        simp [enterFields] at hp
        rcases hp with rfl | rfl | rfl | rfl <;>
          simp [colStart, colEnd, colBreakStart, colBreakEnd, colDate]
      have hslice := applyFields_colSlice k _ ts ts4 (le_of_lt hk) hcols happ
      have hnd : ((enterFields s e bs be).map Prod.snd).Nodup := by
        show ([Col.B, Col.E, Col.C, Col.D] : List Col).Nodup
        decide
      have hidem := applyFields_idem k _ ts ts4 (le_of_lt hk) hnd happ
      have hfi4 : findRowIdx day (columnSlice ts4.grid colDate) 0 = some k := by
        rw [hslice]; exact hfi
      constructor
      · simp [enter, getRowIndex, hfi4, hidem]
      · intro _ hp
        refine applyFields_dirty_of_present k _ ts ts4 happ ?_
        rcases hp with hs | he | hbs | hbe
        · exact ⟨(s, colStart), by simp [enterFields], hs⟩
        · exact ⟨(e, colEnd), by simp [enterFields], he⟩
        · exact ⟨(bs, colBreakStart), by simp [enterFields], hbs⟩
        · exact ⟨(be, colBreakEnd), by simp [enterFields], hbe⟩

/-- C5 witness: re-entering 09:00 as start on the state a first call
produced reproduces that state exactly, with the dirty flag true both
times. -/
theorem claim_c5_witness :
    enter
      (⟨"f.xlsx",
        [⟨.vDatetime ⟨2024,2,29⟩ ⟨0,0,0⟩, .vTime ⟨9,0,0⟩, .vNone, .vNone, .vNone⟩,
         ⟨.vDatetime ⟨2024,3,1⟩ ⟨0,0,0⟩, .vNone, .vNone, .vNone, .vNone⟩], true⟩ : Timesheet)
      (.day ⟨2024,3,1⟩) (some (.t ⟨9,0,0⟩)) none none none =
      .ok (some 1, true,
        (⟨"f.xlsx",
          [⟨.vDatetime ⟨2024,2,29⟩ ⟨0,0,0⟩, .vTime ⟨9,0,0⟩, .vNone, .vNone, .vNone⟩,
           ⟨.vDatetime ⟨2024,3,1⟩ ⟨0,0,0⟩, .vNone, .vNone, .vNone, .vNone⟩], true⟩ : Timesheet),
        []) ∧
    ((some 1 : Option Nat).isSome →
      ((some (TimeArg.t ⟨9,0,0⟩) : Option TimeArg).isSome ∨
        (none : Option TimeArg).isSome ∨ (none : Option TimeArg).isSome ∨
        (none : Option TimeArg).isSome) → true = true) :=
  claim_c5_enter_idempotent
    (Timesheet.init "f.xlsx"
      [⟨.vDatetime ⟨2024,2,29⟩ ⟨0,0,0⟩, .vNone, .vNone, .vNone, .vNone⟩,
       ⟨.vDatetime ⟨2024,3,1⟩ ⟨0,0,0⟩, .vNone, .vNone, .vNone, .vNone⟩])
    (.day ⟨2024,3,1⟩) (some (.t ⟨9,0,0⟩)) none none none (some 1) true _ [] (by decide)

/-- C7: the dirty flag is false immediately after open (`__init__`); any
successful `_set_column` (the one field-setter) leaves it true; `save`
clears it — and is the only state transition that does — while printing
the confirmation diagnostic naming the path (and changing nothing else
of the state); and `enter` never clears a set flag (its only flag
transitions are those of its `_set_column` calls). -/
theorem claim_c7_dirty_flag_invariant :
    (∀ (path : String) (g : Grid), (Timesheet.init path g).dirty = false) ∧
    (∀ (ts : Timesheet) (c : Col) (k : Nat) (v : CellValue) (ts' : Timesheet),
      setColumn ts c k v = .ok ts' → ts'.dirty = true) ∧
    (∀ ts : Timesheet,
      (save ts).1.dirty = false ∧
      (save ts).2 = ["Timesheet updated: " ++ ts.filePath] ∧
      (save ts).1.grid = ts.grid ∧ (save ts).1.filePath = ts.filePath) ∧
    (∀ (ts : Timesheet) (day : PyDay) (s e bs be : Option TimeArg)
        (row : Option Nat) (d : Bool) (ts' : Timesheet) (errs : List String),
      enter ts day s e bs be = .ok (row, d, ts', errs) →
        ts.dirty = true → ts'.dirty = true) := by
  refine ⟨fun _ _ => rfl, ?_, fun ts => ⟨rfl, rfl, rfl, rfl⟩, ?_⟩
  · intro ts c k v ts' h
    by_cases hk : k = 0
    · simp [setColumn, hk] at h
    · simp only [setColumn, if_neg hk, Except.ok.injEq] at h
      rw [← h]
  · intro ts day s e bs be row d ts' errs h hd
    cases hfi : findRowIdx day (columnSlice ts.grid colDate) 0 with
    | none =>
      simp [enter, getRowIndex, hfi] at h
      obtain ⟨-, -, rfl, -⟩ := h
      exact hd
    | some k =>
      cases happ : applyFields k (enterFields s e bs be) ts with
      | error msg => simp [enter, getRowIndex, hfi, happ] at h
      | ok ts4 =>
        simp [enter, getRowIndex, hfi, happ] at h
        obtain ⟨-, -, rfl, -⟩ := h
        exact applyFields_dirty_mono _ _ _ _ happ hd

/-- C7 witness: concrete instances of each conjunct — a fresh open is
clean, a successful cell write marks dirty, save clears it and prints
the confirmation, and a whole `enter` on an already-dirty state leaves
it dirty. -/
theorem claim_c7_witness :
    (Timesheet.init "p.xlsx" []).dirty = false ∧
    (⟨"p.xlsx", [⟨.vNone, .vTime ⟨8,0,0⟩, .vNone, .vNone, .vNone⟩], true⟩ : Timesheet).dirty
      = true ∧
    (save (⟨"p.xlsx", [], true⟩ : Timesheet)).1.dirty = false ∧
    (⟨"q.xlsx", [], true⟩ : Timesheet).dirty = true :=
  ⟨claim_c7_dirty_flag_invariant.1 "p.xlsx" [],
   claim_c7_dirty_flag_invariant.2.1
     (⟨"p.xlsx", [emptyRow], false⟩ : Timesheet) Col.B 1 (.vTime ⟨8,0,0⟩) _ (by decide),
   (claim_c7_dirty_flag_invariant.2.2.1 (⟨"p.xlsx", [], true⟩ : Timesheet)).1,
   claim_c7_dirty_flag_invariant.2.2.2
     (⟨"q.xlsx", [], true⟩ : Timesheet) (.day ⟨2024,1,1⟩) none none none none
     none false (⟨"q.xlsx", [], true⟩ : Timesheet)
     ["Could not find row for day " ++ (⟨2024,1,1⟩ : Date).str ++ " in " ++ "q.xlsx"]
     (by decide) rfl⟩

/-- C10 witness: a sheet carrying 2024-03-01 only as a plain date cell, as
text, and as a number is reported not-found for that day. -/
theorem claim_c10_witness :
    getRowIndex
      (Timesheet.init "m.xlsx"
        [⟨.vDate ⟨2024,3,1⟩, .vNone, .vNone, .vNone, .vNone⟩,
         ⟨.vStr "2024-03-01", .vNone, .vNone, .vNone, .vNone⟩,
         ⟨.vInt 20240301, .vNone, .vNone, .vNone, .vNone⟩])
      (.day ⟨2024,3,1⟩) =
    (none, ["Could not find row for day " ++ (⟨2024,3,1⟩ : Date).str ++ " in " ++ "m.xlsx"]) :=
  claim_c10_only_datetime_matches.2 _ _ (by
    intro v hv t
    simp [columnSlice, Timesheet.init, getCol, colDate] at hv
    rcases hv with rfl | rfl | rfl <;> simp)
